import Mathlib

/-!
Verification of the analog VU-meter simulator from
`src/home-io-test/src/components/Audio/RetroVUMeter.js`.

The JavaScript component keeps three numeric fields per meter: the raw input
level, the smoothed needle position, and a decaying peak-hold value.  We embed
the arithmetic over the rationals, mirroring each source expression.
-/

/-- Lower clamp bound of `dbToPercent` (source line 15: `const minDb = -60`). -/
def minDb : ℚ := -60

/-- Upper clamp bound of `dbToPercent` (source line 16: `const maxDb = 6`). -/
def maxDb : ℚ := 6

/-- Source `dbToPercent` (lines 13-19):
`limitedDb = Math.max(minDb, Math.min(maxDb, db)); return (limitedDb - minDb) / (maxDb - minDb)`. -/
def dbToPercent (db : ℚ) : ℚ :=
  let limitedDb := max minDb (min maxDb db)
  (limitedDb - minDb) / (maxDb - minDb)

/-- Source `percentToAngle` (lines 22-25): `return -45 + (percent * 90)`. -/
def percentToAngle (percent : ℚ) : ℚ :=
  -45 + percent * 90

/-- Spring factor used by the needle update (source line 67: `* 0.08`). -/
def springFactor : ℚ := 8 / 100

/-- One per-frame needle update from the `draw` callback (source lines 63-70):
`distanceToTarget = needleTarget - needlePos; acceleration = distanceToTarget * s;
needlePos += acceleration`.  The spring factor is a parameter so the claims
quantifying over it can be stated. -/
def advanceNeedle (needlePos needleTarget s : ℚ) : ℚ :=
  let distanceToTarget := needleTarget - needlePos
  let acceleration := distanceToTarget * s
  needlePos + acceleration

/-- The same frame update with the elapsed-time argument of the spec signature
`advanceNeedle(state, targetDb, dt)`.  The source `draw` callback (line 56)
declares no time parameter, so the body never consults `dt`. -/
def advanceNeedleTimed (needlePos needleTarget s dt : ℚ) : ℚ :=
  let distanceToTarget := needleTarget - needlePos
  let acceleration := distanceToTarget * s
  needlePos + acceleration

/-- Iterate the frame update `n` times with a fixed target and spring factor. -/
def iterateNeedle (needleTarget s : ℚ) : ℕ → ℚ → ℚ
  | 0, pos => pos
  | n + 1, pos => iterateNeedle needleTarget s n (advanceNeedle pos needleTarget s)

/-- Run the timed frame update once per entry of a list of frame durations. -/
def runFrames (needleTarget s : ℚ) (pos : ℚ) : List ℚ → ℚ
  | [] => pos
  | dt :: dts => runFrames needleTarget s (advanceNeedleTimed pos needleTarget s dt) dts

/-- Peak decay rate per decay tick (source line 36: `-= 0.5`). -/
def peakDecayRate : ℚ := 1 / 2

/-- Rise step of the peak hold (source lines 29-31):
`if (peak > peakHoldRef.current) peakHoldRef.current = peak`. -/
def peakHoldRise (peakHold peak : ℚ) : ℚ :=
  if peak > peakHold then peak else peakHold

/-- One decay tick of the peak hold (source lines 34-38):
`if (peakHoldRef.current > peak) peakHoldRef.current -= 0.5`. -/
def decayTick (peakHold peak : ℚ) : ℚ :=
  if peakHold > peak then peakHold - peakDecayRate else peakHold

/-- Iterate the decay tick `n` times against a fixed current level. -/
def iterDecayTicks (peak : ℚ) : ℕ → ℚ → ℚ
  | 0, p => p
  | n + 1, p => iterDecayTicks peak n (decayTick p peak)

/-- Division with an explicit zero-divisor check, to express that the one
division in the simulator can never hit a zero divisor. -/
def checkedDiv (a b : ℚ) : Option ℚ :=
  if b = 0 then none else some (a / b)

/-- `dbToPercent` with its division routed through `checkedDiv`. -/
def dbToPercentChecked (db : ℚ) : Option ℚ :=
  let limitedDb := max minDb (min maxDb db)
  checkedDiv (limitedDb - minDb) (maxDb - minDb)

/-- Gap to the target shrinks by the factor `1 - s` each frame. -/
theorem iterateNeedle_gap (t s : ℚ) :
    ∀ (n : ℕ) (p : ℚ), t - iterateNeedle t s n p = (1 - s) ^ n * (t - p) := by
  intro n
  induction n with
  | zero => intro p; simp [iterateNeedle]
  | succ k ih =>
    intro p
    have hstep : iterateNeedle t s (k + 1) p = iterateNeedle t s k (advanceNeedle p t s) := rfl
    rw [hstep, ih]
    unfold advanceNeedle
    ring

/-- Claim C4: one step of the needle update computes exactly
`pos + (target - pos) * s`; at equilibrium (`pos = target`) the position is
unchanged, in particular `-20` with target `-20` stays `-20`, and from `0`
toward `-60` with spring factor `0.08` one step lands exactly on `-4.8`. -/
theorem advanceNeedle_update_rule :
    (∀ pos t s : ℚ, advanceNeedle pos t s = pos + (t - pos) * s)
    ∧ (∀ pos s : ℚ, advanceNeedle pos pos s = pos)
    ∧ advanceNeedle (-20) (-20) springFactor = -20
    ∧ advanceNeedle 0 (-60) springFactor = -24 / 5 := by
  refine ⟨fun pos t s => rfl, fun pos s => ?_, by norm_num [advanceNeedle, springFactor],
    by norm_num [advanceNeedle, springFactor]⟩
  unfold advanceNeedle
  ring

/-- Claim C1 counterexample: with `peakHoldDb = -19.8` and `currentDb = -20`
the gap is `0.2`, not a multiple of `0.5`; the guard `peakHold > peak` holds,
yet one decay tick lands at `-20.3`, strictly below the current level. -/
theorem decayTick_undershoot_cex :
    ((-99 : ℚ) / 5) > -20 ∧ decayTick ((-99 : ℚ) / 5) (-20) < -20 := by
  constructor <;> norm_num [decayTick, peakDecayRate]

/-- Splitting a run of decay ticks into two consecutive runs. -/
theorem iterDecayTicks_add (c : ℚ) (n m : ℕ) :
    ∀ p : ℚ, iterDecayTicks c (n + m) p = iterDecayTicks c m (iterDecayTicks c n p) := by
  induction n with
  | zero => intro p; rw [Nat.zero_add]; rfl
  | succ k ih =>
    intro p
    have h1 : k + 1 + m = k + m + 1 := by omega
    rw [h1]
    have hstep : iterDecayTicks c (k + m + 1) p
        = iterDecayTicks c (k + m) (decayTick p c) := rfl
    rw [hstep, ih (decayTick p c)]
    rfl

/-- When the starting gap is exactly `n` decay steps, `n` ticks land exactly on
the current level. -/
theorem iterDecayTicks_exact (c : ℚ) :
    ∀ n : ℕ, iterDecayTicks c n (c + (n : ℚ) * peakDecayRate) = c := by
  intro n
  induction n with
  | zero => simp [iterDecayTicks]
  | succ k ih =>
    have hcast : ((k + 1 : ℕ) : ℚ) = (k : ℚ) + 1 := by push_cast; ring
    rw [hcast]
    have hstep : iterDecayTicks c (k + 1) (c + ((k : ℚ) + 1) * peakDecayRate)
        = iterDecayTicks c k (decayTick (c + ((k : ℚ) + 1) * peakDecayRate) c) := rfl
    rw [hstep]
    have hk : (0 : ℚ) ≤ (k : ℚ) := Nat.cast_nonneg k
    have hgt : c + ((k : ℚ) + 1) * peakDecayRate > c := by
      rw [peakDecayRate]; nlinarith
    have htick : decayTick (c + ((k : ℚ) + 1) * peakDecayRate) c
        = c + (k : ℚ) * peakDecayRate := by
      unfold decayTick
      rw [if_pos hgt, peakDecayRate]; ring
    rw [htick, ih]

/-- Claim C1 (amended): one decay tick from `peakHoldDb > currentDb` never goes
below `currentDb - 0.5` (undershoot is bounded by one decay step); once
`peakHoldDb ≤ currentDb` the tick leaves the value unchanged; and when the gap
is an exact multiple of `0.5` (the spec example `-5` over floor `-20`) repeated
ticks stop exactly at the current level: 30 ticks reach `-20` and the 31st
leaves it there. -/
theorem decayTick_bounded_undershoot :
    (∀ p c : ℚ, p > c → decayTick p c ≥ c - peakDecayRate)
    ∧ (∀ p c : ℚ, p ≤ c → decayTick p c = p)
    ∧ iterDecayTicks (-20) 30 (-5) = -20
    ∧ iterDecayTicks (-20) 31 (-5) = -20 := by
  have h30 : iterDecayTicks (-20) 30 (-5) = -20 := by
    have h := iterDecayTicks_exact (-20) 30
    norm_num [peakDecayRate] at h
    exact h
  have h31 : iterDecayTicks (-20) 31 (-5) = -20 := by
    have hadd := iterDecayTicks_add (-20) 30 1 (-5)
    norm_num at hadd
    rw [hadd, h30]
    show decayTick (-20) (-20) = -20
    unfold decayTick
    rw [if_neg (lt_irrefl _)]
  refine ⟨fun p c h => ?_, fun p c h => ?_, h30, h31⟩
  · unfold decayTick
    rw [if_pos h]
    linarith
  · unfold decayTick
    rw [if_neg (by linarith)]

/-- Claim C1 witness: the amended bound instantiated at `peakHoldDb = -19.8`,
`currentDb = -20`. -/
theorem decayTick_bounded_undershoot_witness :
    decayTick ((-99 : ℚ) / 5) (-20) ≥ -20 - peakDecayRate :=
  decayTick_bounded_undershoot.1 ((-99 : ℚ) / 5) (-20) (by norm_num)

/-- Claim C2 counterexample: starting the needle at `-60` with target `0` and
spring factor `0.08`, after 30 frames the position is still below `-1`, so it
is not within 1 dB of 0. -/
theorem needle_thirty_frames_not_within_one :
    iterateNeedle 0 springFactor 30 (-60) < -1 := by
  have h := iterateNeedle_gap 0 springFactor 30 (-60)
  rw [show (0 : ℚ) - -60 = 60 by norm_num] at h
  have h60 : (1 - springFactor) ^ 30 * 60 > 1 := by
    norm_num [springFactor]
  linarith

/-- Claim C2 (amended): the closed form holds — after `n` frames the remaining
gap to the target is `(1 - s)^n` times the original gap; for the concrete
scenario (start `-60`, target `0`, spring factor `0.08`) the gap after 30
frames equals `0.92^30 * 60 ≈ 4.91` dB, which is within 5 dB of 0 but not
within 1 dB. -/
theorem needle_gap_closed_form :
    (∀ (t s : ℚ) (n : ℕ) (p : ℚ), t - iterateNeedle t s n p = (1 - s) ^ n * (t - p))
    ∧ (0 - iterateNeedle 0 springFactor 30 (-60) = (1 - springFactor) ^ 30 * 60)
    ∧ 1 < 0 - iterateNeedle 0 springFactor 30 (-60)
    ∧ 0 - iterateNeedle 0 springFactor 30 (-60) < 5 := by
  have h := iterateNeedle_gap 0 springFactor 30 (-60)
  rw [show (0 : ℚ) - -60 = 60 by norm_num] at h
  refine ⟨iterateNeedle_gap, h, ?_, ?_⟩
  · have : (1 - springFactor) ^ 30 * 60 > 1 := by norm_num [springFactor]
    linarith
  · have : (1 - springFactor) ^ 30 * 60 < 5 := by norm_num [springFactor]
    linarith

/-- Claim C3: for spring factor `s` in `(0,1]`, each needle step stays between
the previous position and the target (inclusive): approaching from below the
position never decreases and never exceeds the target, and symmetrically from
above — the needle never crosses (overshoots) the target. -/
theorem advanceNeedle_no_overshoot (s pos t : ℚ) (hs0 : 0 < s) (hs1 : s ≤ 1) :
    (pos ≤ t → pos ≤ advanceNeedle pos t s ∧ advanceNeedle pos t s ≤ t)
    ∧ (t ≤ pos → t ≤ advanceNeedle pos t s ∧ advanceNeedle pos t s ≤ pos) := by
  have hdef : advanceNeedle pos t s = pos + (t - pos) * s := rfl
  rw [hdef]
  constructor
  · intro h
    constructor
    · nlinarith [mul_nonneg (sub_nonneg.mpr h) hs0.le]
    · nlinarith [mul_nonneg (sub_nonneg.mpr h) (sub_nonneg.mpr hs1)]
  · intro h
    constructor
    · nlinarith [mul_nonneg (sub_nonneg.mpr h) (sub_nonneg.mpr hs1)]
    · nlinarith [mul_nonneg (sub_nonneg.mpr h) hs0.le]

/-- Claim C3 witness: the no-overshoot bounds at spring factor `0.08`, starting
position `-30`, target `0`. -/
theorem advanceNeedle_no_overshoot_witness :
    ((-30 : ℚ) ≤ 0 → (-30 : ℚ) ≤ advanceNeedle (-30) 0 springFactor
        ∧ advanceNeedle (-30) 0 springFactor ≤ 0)
    ∧ ((0 : ℚ) ≤ -30 → (0 : ℚ) ≤ advanceNeedle (-30) 0 springFactor
        ∧ advanceNeedle (-30) 0 springFactor ≤ -30) :=
  advanceNeedle_no_overshoot springFactor (-30) 0 (by norm_num [springFactor])
    (by norm_num [springFactor])

/-- Claim C5: the rise step is an immediate maximum — when the incoming level
exceeds the held peak the peak becomes the incoming level with no smoothing
(in particular `-10` with input `-5` yields `-5`), otherwise it is unchanged;
and the only other peak operation, the decay tick, never increases the peak. -/
theorem peakHoldRise_immediate :
    (∀ p c : ℚ, c > p → peakHoldRise p c = c)
    ∧ (∀ p c : ℚ, c ≤ p → peakHoldRise p c = p)
    ∧ peakHoldRise (-10) (-5) = -5
    ∧ (∀ p c : ℚ, decayTick p c ≤ p) := by
  refine ⟨fun p c h => ?_, fun p c h => ?_, by norm_num [peakHoldRise], fun p c => ?_⟩
  · unfold peakHoldRise
    rw [if_pos h]
  · unfold peakHoldRise
    rw [if_neg (by linarith)]
  · unfold decayTick
    by_cases h : p > c
    · rw [if_pos h, peakDecayRate]
      linarith
    · rw [if_neg h]

/-- Claim C5 witness: the rise cases at concrete levels `(-10, -5)` (strict
rise) and `(-3, -7)` (no change). -/
theorem peakHoldRise_immediate_witness :
    peakHoldRise (-10) (-5) = -5 ∧ peakHoldRise (-3) (-7) = -3 :=
  ⟨peakHoldRise_immediate.1 (-10) (-5) (by norm_num),
   peakHoldRise_immediate.2.1 (-3) (-7) (by norm_num)⟩

/-- Claim C6: `dbToPercent` saturates at the range boundaries — every input at
or below `-60` maps to exactly `0`, and every input at or above `6` maps to
exactly `1`. -/
theorem dbToPercent_saturation (db : ℚ) :
    (db ≤ -60 → dbToPercent db = 0) ∧ (6 ≤ db → dbToPercent db = 1) := by
  constructor
  · intro h
    unfold dbToPercent minDb maxDb
    rw [min_eq_right (by linarith), max_eq_left (by linarith)]
    norm_num
  · intro h
    unfold dbToPercent minDb maxDb
    rw [min_eq_left (by linarith), max_eq_right (by linarith)]
    norm_num

/-- Claim C6 witness: saturation evaluated at `-70` and at `10`. -/
theorem dbToPercent_saturation_witness :
    dbToPercent (-70) = 0 ∧ dbToPercent 10 = 1 :=
  ⟨(dbToPercent_saturation (-70)).1 (by norm_num),
   (dbToPercent_saturation 10).2 (by norm_num)⟩

/-- Claim C7: `dbToPercent` always lands in `[0, 1]`, and both `dbToPercent`
and `percentToAngle` are monotone non-decreasing. -/
theorem dbToPercent_range_monotone :
    (∀ db : ℚ, 0 ≤ dbToPercent db ∧ dbToPercent db ≤ 1)
    ∧ (∀ x y : ℚ, x ≤ y → dbToPercent x ≤ dbToPercent y)
    ∧ (∀ x y : ℚ, x ≤ y → percentToAngle x ≤ percentToAngle y) := by
  refine ⟨fun db => ?_, fun x y h => ?_, fun x y h => ?_⟩
  · unfold dbToPercent minDb maxDb
    constructor
    · apply div_nonneg _ (by norm_num)
      have := le_max_left (-60 : ℚ) (min 6 db)
      linarith
    · rw [div_le_one (by norm_num)]
      have h6 : min (6 : ℚ) db ≤ 6 := min_le_left 6 db
      have := max_le (by norm_num : (-60 : ℚ) ≤ 6) h6
      linarith
  · unfold dbToPercent minDb maxDb
    apply div_le_div_of_nonneg_right _ (by norm_num)
    have hmin : min (6 : ℚ) x ≤ min 6 y := min_le_min le_rfl h
    have := max_le_max (le_refl (-60 : ℚ)) hmin
    linarith
  · unfold percentToAngle
    linarith

/-- Claim C7 witness: monotonicity of both maps instantiated at `0 ≤ 5` and
`0 ≤ 1/2`. -/
theorem dbToPercent_range_monotone_witness :
    dbToPercent 0 ≤ dbToPercent 5 ∧ percentToAngle 0 ≤ percentToAngle (1 / 2) :=
  ⟨dbToPercent_range_monotone.2.1 0 5 (by norm_num),
   dbToPercent_range_monotone.2.2 0 (1 / 2) (by norm_num)⟩

/-- Claim C8: `percentToAngle` is exactly the affine map `-45 + u * 90`, and
composing the two maps at the decibel range endpoints reaches the arc
endpoints: `-60` dB maps to `-45°` and `6` dB maps to `45°`. -/
theorem percentToAngle_linear_roundtrip :
    (∀ u : ℚ, percentToAngle u = -45 + u * 90)
    ∧ percentToAngle (dbToPercent (-60)) = -45
    ∧ percentToAngle (dbToPercent 6) = 45 := by
  refine ⟨fun u => rfl, ?_, ?_⟩ <;>
    norm_num [percentToAngle, dbToPercent, minDb, maxDb]

/-- Claim C9: every simulator operation is a total function of its numeric
inputs; the only division in the pipeline has the constant divisor
`maxDb - minDb = 66`, which is nonzero, so routing it through a
zero-divisor-checked division always succeeds and returns the unchecked
value. -/
theorem meter_ops_total :
    maxDb - minDb = 66 ∧ (66 : ℚ) ≠ 0
    ∧ (∀ db : ℚ, dbToPercentChecked db = some (dbToPercent db)) := by
  refine ⟨by norm_num [maxDb, minDb], by norm_num, fun db => ?_⟩
  unfold dbToPercentChecked dbToPercent checkedDiv
  rw [if_neg (by norm_num [maxDb, minDb])]

/-- Claim C10: the frame update ignores the elapsed time entirely — a single
timed step gives the same result for any two step durations, and running any
two frame-duration schedules of equal length from the same start yields the
same needle position (needle speed depends only on the frame count). -/
theorem advanceNeedle_time_independent :
    (∀ pos t s dt1 dt2 : ℚ,
      advanceNeedleTimed pos t s dt1 = advanceNeedleTimed pos t s dt2)
    ∧ (∀ (pos t s : ℚ) (dts1 dts2 : List ℚ), dts1.length = dts2.length →
      runFrames t s pos dts1 = runFrames t s pos dts2) := by
  refine ⟨fun pos t s dt1 dt2 => rfl, fun pos t s dts1 => ?_⟩
  induction dts1 generalizing pos with
  | nil =>
    intro dts2 hlen
    rw [List.length_nil] at hlen
    rw [List.eq_nil_of_length_eq_zero hlen.symm]
  | cons dt dts ih =>
    intro dts2 hlen
    cases dts2 with
    | nil => simp at hlen
    | cons dt2 dts2 =>
      simp only [List.length_cons, Nat.add_right_cancel_iff] at hlen
      show runFrames t s (advanceNeedleTimed pos t s dt) dts
          = runFrames t s (advanceNeedleTimed pos t s dt2) dts2
      exact ih (advanceNeedleTimed pos t s dt) dts2 hlen

/-- Claim C10 witness: two 2-frame schedules with different durations produce
the same needle position from `-60` toward `0`. -/
theorem advanceNeedle_time_independent_witness :
    runFrames 0 springFactor (-60) [1, 2] = runFrames 0 springFactor (-60) [7, 9] :=
  advanceNeedle_time_independent.2 (-60) 0 springFactor [1, 2] [7, 9] (by norm_num)
